import Mathlib

/-!
Shallow embedding of the nativefire core: platform classification,
identifier resolution, registry reconciliation, config installation and
the idempotent source-mutation patches.

Strings are modelled as lists of characters (`Str`).  Go's
`strings.ToLower` is modelled as ASCII lowercasing via `Char.toLower`;
all inputs the tool compares against are ASCII literals.  Filesystem
reads performed by the Go code are made explicit: either as an abstract
`FS` record of the two probing helpers (`fileExists`, `findFile`), as an
association list from paths to file contents, or as already-read file
contents passed as arguments to the pure content transformations.
-/

abbrev Str := List Char

/-- Coerce a Lean string literal to the character-list model. -/
def str (s : String) : Str := s.data

/-- Model of Go `strings.Contains`: the second argument occurs as a
contiguous substring of the first.  The recursion consumes four
characters per step so that kernel reduction stays shallow on the long
source-file contents the mutation patches are evaluated on. -/
def containsSub : Str → Str → Bool
  | [], needle => needle.isEmpty
  | s1@(_ :: t1), needle =>
    needle.isPrefixOf s1 ||
    match t1 with
    | [] => needle.isEmpty
    | s2@(_ :: t2) =>
      needle.isPrefixOf s2 ||
      match t2 with
      | [] => needle.isEmpty
      | s3@(_ :: t3) =>
        needle.isPrefixOf s3 ||
        match t3 with
        | [] => needle.isEmpty
        | s4@(_ :: t4) => needle.isPrefixOf s4 || containsSub t4 needle

/-- Model of Go `strings.Replace(s, old, new, 1)`: replace the first
occurrence of `old` by `new`.  Every call site in the sources passes a
non-empty `old`; for non-empty `old` this agrees with Go exactly.  Like
`containsSub` the recursion steps four characters at a time. -/
def replaceFirst : Str → Str → Str → Str
  | [], _, _ => []
  | s1@(c1 :: t1), old, new =>
    if old.isPrefixOf s1 then new ++ s1.drop old.length
    else c1 ::
      match t1 with
      | [] => []
      | s2@(c2 :: t2) =>
        if old.isPrefixOf s2 then new ++ s2.drop old.length
        else c2 ::
          match t2 with
          | [] => []
          | s3@(c3 :: t3) =>
            if old.isPrefixOf s3 then new ++ s3.drop old.length
            else c3 ::
              match t3 with
              | [] => []
              | s4@(c4 :: t4) =>
                if old.isPrefixOf s4 then new ++ s4.drop old.length
                else c4 :: replaceFirst t4 old new

/-- Length of a character list, recursion unrolled four at a time. -/
def strLen : Str → Nat
  | [] => 0
  | [_] => 1
  | [_, _] => 2
  | [_, _, _] => 3
  | _ :: _ :: _ :: _ :: t => 4 + strLen t

/-- Model of Go `strings.ToLower`, ASCII case mapping. -/
def toLowerStr (s : Str) : Str := s.map Char.toLower

/-- Model of Go `strings.Split(s, "\n")`. -/
def splitNl : Str → List Str
  | [] => [[]]
  | c :: t =>
    if c = '\n' then [] :: splitNl t
    else
      match splitNl t with
      | l :: ls => (c :: l) :: ls
      | [] => [[c]]

/-- Model of Go `strings.Join(lines, "\n")`. -/
def joinNl : List Str → Str
  | [] => []
  | [l] => l
  | l :: l2 :: ls => l ++ '\n' :: joinNl (l2 :: ls)

/-- Index of the last occurrence of a character, model of Go
`strings.LastIndex` with a one-character pattern (unrolled four at a
time like `containsSub`). -/
def lastIndexOf : Str → Char → Option Nat
  | [], _ => none
  | [a], c => if a = c then some 0 else none
  | [a, b], c =>
    if b = c then some 1 else if a = c then some 0 else none
  | [a, b, d], c =>
    if d = c then some 2 else if b = c then some 1
    else if a = c then some 0 else none
  | a :: b :: d :: e :: t, c =>
    match lastIndexOf t c with
    | some i => some (i + 4)
    | none =>
      if e = c then some 3 else if d = c then some 2
      else if b = c then some 1 else if a = c then some 0 else none

/-- Model of the Go slice-splice idiom `s[:i] + ins + s[i:]` (insertion
of `ins` at index `i`, where the callers always pass `i ≤ length s`). -/
def spliceAt : Str → Nat → Str → Str
  | s, 0, ins => ins ++ s
  | [], _ + 1, ins => ins
  | c :: t, 1, ins => c :: (ins ++ t)
  | [c], _ + 2, ins => c :: ins
  | c :: d :: t, 2, ins => c :: d :: (ins ++ t)
  | [c, d], _ + 3, ins => c :: d :: ins
  | c :: d :: e :: t, 3, ins => c :: d :: e :: (ins ++ t)
  | [c, d, e], _ + 4, ins => c :: d :: e :: ins
  | c :: d :: e :: f :: t, n + 4, ins => c :: d :: e :: f :: spliceAt t n ins

/-!  Identifier generation (internal/firebase/firebase.go). -/

/-- Model of `strings.ReplaceAll(projectID, "-", ".")`: with a
one-character pattern this is character-wise replacement. -/
def replaceDash (s : Str) : Str := s.map fun c => if c = '-' then '.' else c

/-- `Client.generateDefaultPackageName` from internal/firebase/firebase.go. -/
def generateDefaultPackageName (projectID : Str) : Str :=
  let sanitized := replaceDash projectID
  if !containsSub sanitized (str ".") then str "com.firebase." ++ sanitized
  else str "com." ++ sanitized

/-- `Client.generateDefaultBundleID` from internal/firebase/firebase.go;
its body is identical to `generateDefaultPackageName`. -/
def generateDefaultBundleID (projectID : Str) : Str :=
  let sanitized := replaceDash projectID
  if !containsSub sanitized (str ".") then str "com.firebase." ++ sanitized
  else str "com." ++ sanitized

/-!  Registry reconciliation (internal/firebase/firebase.go).

The Firebase CLI subprocess calls are made explicit parameters: a
listing is an `Except Str (List App)` (error output or parsed apps), a
creation attempt is an `Except Str Str` (error output or success
output), and the two filesystem-scanning detectors
`detectIOSBundleID` / `detectAndroidPackageName` are summarised by the
`Detected` record holding their results (empty string = nothing found),
matching their use sites, which only compare the result with "". -/

/-- Model of the `App` record parsed from `firebase apps:list`.  The Go
field `Namespace` is spelled `nameSpace` (the Go name is a Lean
keyword). -/
structure App where
  appID : Str
  displayName : Str
  projectID : Str
  platform : Str
  bundleID : Str
  packageName : Str
  nameSpace : Str
deriving DecidableEq

/-- Model of the fields of `firebase.Config` used by registration:
`Platform` is represented by the string `platformName` returned by its
`Name()` method, exactly what `RegisterApp` and its helpers consume. -/
structure ConfigM where
  projectID : Str
  appID : Str
  platformName : Str
  bundleID : Str
  packageName : Str
deriving DecidableEq

/-- Results of the two project-file identifier detectors
(`Client.detectIOSBundleID` and `Client.detectAndroidPackageName`);
the empty string models "not found". -/
structure Detected where
  iosBundleID : Str
  androidPackageName : Str
deriving DecidableEq

/-- `Client.resolveExpectedIdentifier` from internal/firebase/firebase.go:
explicit config field, else detector result, else generated default. -/
def resolveExpectedIdentifier (cfg : ConfigM) (d : Detected) (platformName : Str) : Str :=
  if platformName = str "ios" ∨ platformName = str "macos" then
    let e := cfg.bundleID
    let e := if e = [] then d.iosBundleID else e
    if e = [] then generateDefaultBundleID cfg.projectID else e
  else if platformName = str "android" then
    let e := cfg.packageName
    let e := if e = [] then d.androidPackageName else e
    if e = [] then generateDefaultPackageName cfg.projectID else e
  else []

/-- `Client.checkIOSAppMatch`: resolves the expected bundle id by the
explicit/detected/generated chain, then compares the app's `bundleId`
field, falling back to `namespace` only when `bundleId` is empty. -/
def checkIOSAppMatch (cfg : ConfigM) (d : Detected) (app : App) : Bool :=
  let expectedBundleID := cfg.bundleID
  let expectedBundleID := if expectedBundleID = [] then d.iosBundleID else expectedBundleID
  let expectedBundleID :=
    if expectedBundleID = [] then generateDefaultBundleID cfg.projectID else expectedBundleID
  let bundleIDToCheck := if app.bundleID = [] then app.nameSpace else app.bundleID
  decide (bundleIDToCheck = expectedBundleID)

/-- `Client.checkAndroidAppMatch`: same shape with `packageName`. -/
def checkAndroidAppMatch (cfg : ConfigM) (d : Detected) (app : App) : Bool :=
  let expectedPackageName := cfg.packageName
  let expectedPackageName :=
    if expectedPackageName = [] then d.androidPackageName else expectedPackageName
  let expectedPackageName :=
    if expectedPackageName = [] then generateDefaultPackageName cfg.projectID else expectedPackageName
  let packageNameToCheck := if app.packageName = [] then app.nameSpace else app.packageName
  decide (packageNameToCheck = expectedPackageName)

/-- `Client.checkAppMatch`: platform dispatch. -/
def checkAppMatch (cfg : ConfigM) (d : Detected) (app : App) (platformName : Str) : Bool :=
  if platformName = str "ios" ∨ platformName = str "macos" then checkIOSAppMatch cfg d app
  else if platformName = str "android" then checkAndroidAppMatch cfg d app
  else false

/-- The loop body of `Client.FindExistingApp`: skip apps of another
platform, return the first app passing `checkAppMatch`. -/
def findExistingAppLoop (cfg : ConfigM) (d : Detected) (platformName : Str) : List App → Option App
  | [] => none
  | app :: rest =>
    if toLowerStr app.platform ≠ platformName then findExistingAppLoop cfg d platformName rest
    else if checkAppMatch cfg d app platformName then some app
    else findExistingAppLoop cfg d platformName rest

/-- `Client.FindExistingApp` applied to an already-fetched listing. -/
def FindExistingApp (cfg : ConfigM) (d : Detected) (apps : List App) : Option App :=
  findExistingAppLoop cfg d (toLowerStr cfg.platformName) apps

/-- `Client.filterAppsByPlatform`. -/
def filterAppsByPlatform (apps : List App) (platformName : Str) : List App :=
  apps.filter fun app => decide (toLowerStr app.platform = platformName)

/-- `Client.findMatchingApp`: the duplicate-recovery search, which
checks the `namespace` field first and the platform-specific field
(bundle id / package name) second. -/
def findMatchingApp (expectedIdentifier platformName : Str) : List App → Option App
  | [] => none
  | app :: rest =>
    if app.nameSpace = expectedIdentifier then some app
    else if (platformName = str "ios" ∨ platformName = str "macos") ∧
        app.bundleID = expectedIdentifier then some app
    else if platformName = str "android" ∧ app.packageName = expectedIdentifier then some app
    else findMatchingApp expectedIdentifier platformName rest

/-- The fixed phrase list of `Client.isDuplicateAppError`. -/
def errorIndicators : List Str :=
  [str "already exists",
   str "duplicate",
   str "bundle id already exists",
   str "package name already exists",
   str "Bundle ID for iOS app cannot be empty",
   str "Failed to create iOS app",
   str "Failed to create Android app"]

/-- `Client.isDuplicateAppError`: case-insensitive substring match of
the CLI error output against the fixed phrase list. -/
def isDuplicateAppError (output : Str) : Bool :=
  let outputLower := toLowerStr output
  errorIndicators.any fun indicator => containsSub outputLower (toLowerStr indicator)

/-- `Client.findExistingAppByIdentifier` applied to the given listing
result: resolve the expected identifier, filter by platform, search
with `findMatchingApp`. -/
def findExistingAppByIdentifier (cfg : ConfigM) (d : Detected)
    (listing : Except Str (List App)) : Except Str (Option App) :=
  match listing with
  | .error e => .error e
  | .ok apps =>
    let platformName := toLowerStr cfg.platformName
    let expectedIdentifier := resolveExpectedIdentifier cfg d platformName
    let platformApps := filterAppsByPlatform apps platformName
    .ok (findMatchingApp expectedIdentifier platformName platformApps)

/-- `Client.handleAppCreationError`: on a duplicate-style creation
failure, re-run the registry search once on a fresh listing; use the
found app's id, otherwise surface the creation error. -/
def handleAppCreationError (cfg : ConfigM) (d : Detected) (outputStr : Str)
    (listing2 : Except Str (List App)) : Except Str Str :=
  if isDuplicateAppError outputStr then
    match findExistingAppByIdentifier cfg d listing2 with
    | .ok (some app) => .ok app.appID
    | _ => .error (str "failed to create Firebase app: " ++ outputStr)
  else .error (str "failed to create Firebase app: " ++ outputStr)

deriving instance DecidableEq for Except

/-- Outcome of one `Client.RegisterApp` run: the final app id (or the
error surfaced), plus whether the registry listing was fetched and
whether `apps:create` was invoked. -/
structure RegisterResult where
  outcome : Except Str Str
  listingQueried : Bool
  createAttempted : Bool
deriving DecidableEq

/-- `Client.RegisterApp` with its subprocess interactions explicit:
`listing1` is the first `apps:list` result, `createResult` the
`apps:create` result, `extractedAppID` models
`Client.extractAppIDFromOutput` (a regex scraper), and `listing2` the
re-listing used by duplicate recovery.  A listing failure before
creation is only a warning in the source and falls through to
creation.  The two preliminary environment probes (`checkFirebaseCLI`,
`checkAuthentication`) are taken as passing; when either fails the Go
code returns before doing anything modelled here. -/
def RegisterApp (cfg : ConfigM) (d : Detected) (listing1 : Except Str (List App))
    (createResult : Except Str Str) (extractedAppID : Str → Str)
    (listing2 : Except Str (List App)) : RegisterResult :=
  if cfg.appID ≠ [] then ⟨.ok cfg.appID, false, false⟩
  else
    let found : Option App :=
      match listing1 with
      | .error _ => none
      | .ok apps => FindExistingApp cfg d apps
    match found with
    | some app => ⟨.ok app.appID, true, false⟩
    | none =>
      match createResult with
      | .error output => ⟨handleAppCreationError cfg d output listing2, true, true⟩
      | .ok output =>
        let appID := extractedAppID output
        if appID = [] then
          ⟨.error (str "failed to extract app ID from Firebase CLI output"), true, true⟩
        else ⟨.ok appID, true, true⟩

/-!  Platform classification (internal/platform/platform.go). -/

/-- The `Type` enumeration of the platform package. -/
inductive PlatformType where
  | android
  | ios
  | macos
  | windows
  | linux
deriving DecidableEq

/-- Abstract view of the two filesystem probes of the platform package:
`fileExists path` and `findFile root pattern` (the latter returns the
matched path, or the empty string when nothing matches). -/
structure FS where
  fileExists : Str → Bool
  findFile : Str → Str → Str

/-- `AndroidPlatform.Detect`. -/
def AndroidPlatform.Detect (fs : FS) : Bool :=
  fs.fileExists (str "build.gradle") ||
  fs.fileExists (str "app/build.gradle") ||
  fs.fileExists (str "android/build.gradle") ||
  fs.fileExists (str "settings.gradle")

/-- `IOSPlatform.Detect`. -/
def IOSPlatform.Detect (fs : FS) : Bool :=
  fs.fileExists (str "ios") ||
  !(fs.findFile (str ".") (str "*.xcodeproj")).isEmpty ||
  !(fs.findFile (str ".") (str "*.xcworkspace")).isEmpty ||
  fs.fileExists (str "Podfile")

/-- `MacOSPlatform.Detect`. -/
def MacOSPlatform.Detect (fs : FS) : Bool :=
  fs.fileExists (str "macos") ||
  (!(fs.findFile (str ".") (str "*.xcodeproj")).isEmpty && fs.fileExists (str "Podfile")) ||
  !(fs.findFile (str ".") (str "main.swift")).isEmpty

/-- `WindowsPlatform.Detect`. -/
def WindowsPlatform.Detect (fs : FS) : Bool :=
  fs.fileExists (str "windows") ||
  !(fs.findFile (str ".") (str "*.vcxproj")).isEmpty ||
  !(fs.findFile (str ".") (str "*.sln")).isEmpty ||
  fs.fileExists (str "CMakeLists.txt")

/-- `LinuxPlatform.Detect`. -/
def LinuxPlatform.Detect (fs : FS) : Bool :=
  fs.fileExists (str "linux") ||
  fs.fileExists (str "CMakeLists.txt") ||
  !(fs.findFile (str ".") (str "Makefile")).isEmpty

/-- Dispatch of `Platform.Detect` over the enumeration. -/
def platformDetect (fs : FS) : PlatformType → Bool
  | .android => AndroidPlatform.Detect fs
  | .ios => IOSPlatform.Detect fs
  | .macos => MacOSPlatform.Detect fs
  | .windows => WindowsPlatform.Detect fs
  | .linux => LinuxPlatform.Detect fs

/-- The loop of `DetectPlatform`: first platform whose detector fires. -/
def detectLoop (fs : FS) : List PlatformType → Except Str PlatformType
  | [] => .error (str "no supported platform detected in current directory")
  | p :: rest => if platformDetect fs p then .ok p else detectLoop fs rest

/-- `DetectPlatform` from internal/platform/platform.go with its fixed
candidate order. -/
def DetectPlatform (fs : FS) : Except Str PlatformType :=
  detectLoop fs [.android, .ios, .macos, .windows, .linux]

/-- `FromString` from internal/platform/platform.go: the Go `switch` on
`strings.ToLower(platformStr)`. -/
def FromString (platformStr : Str) : Except Str PlatformType :=
  let l := toLowerStr platformStr
  if l = str "android" then .ok .android
  else if l = str "ios" then .ok .ios
  else if l = str "macos" then .ok .macos
  else if l = str "windows" then .ok .windows
  else if l = str "linux" then .ok .linux
  else .error (str "unsupported platform: " ++ platformStr)

/-- A concrete directory containing both `build.gradle` and `Podfile`
and nothing else. -/
def gradlePodfileFS : FS :=
  ⟨fun p => decide (p = str "build.gradle") || decide (p = str "Podfile"), fun _ _ => []⟩

/-!  Source mutation (internal/platform/android.go and ios.go).

The patch functions below are the content transformations the Go code
performs between `os.ReadFile` and `os.WriteFile`; literal braces in
the patched dialects are written `\x7b`/`\x7d` and apostrophes `\x27`. -/

/-- The app-level build.gradle transformation of
`AndroidPlatform.AddInitializationCode`: skip when the
"google-services" marker is present; insert the plugin id after a
`plugins {` anchor, else prepend an `apply plugin:` line. -/
def addGoogleServicesPlugin (contentStr : Str) : Str :=
  if !containsSub contentStr (str "google-services") then
    if containsSub contentStr (str "plugins \x7b") then
      replaceFirst contentStr (str "plugins \x7b")
        (str "plugins \x7b\n    id \x27com.google.gms.google-services\x27")
    else str "apply plugin: \x27com.google.gms.google-services\x27\n\n" ++ contentStr
  else contentStr

/-- `AndroidPlatform.addClasspathToBuildGradle`: the Go code splices
the classpath line right after the first `dependencies {`, which is
the same as replacing that first anchor occurrence by itself plus the
insertion. -/
def addClasspathToBuildGradle (contentStr : Str) : Str :=
  if !containsSub contentStr (str "google-services") then
    if containsSub contentStr (str "dependencies \x7b") then
      replaceFirst contentStr (str "dependencies \x7b")
        (str "dependencies \x7b\n        classpath \x27com.google.gms:google-services:4.3.15\x27")
    else contentStr
  else contentStr

/-- One line of the Podfile loop in `IOSPlatform.addFirebasePods`:
every line is kept, and a line containing both "target" and "do" is
followed by the two pod lines. -/
def podfileExpandLine (line : Str) : List Str :=
  if containsSub line (str "target") && containsSub line (str "do") then
    [line, str "  pod \x27Firebase/Core\x27", str "  pod \x27Firebase/Analytics\x27"]
  else [line]

/-- `IOSPlatform.addFirebasePods`: skip when "Firebase/Core" is
present, else rebuild the file line by line inserting the pods after
each target line. -/
def addFirebasePods (contentStr : Str) : Str :=
  if !containsSub contentStr (str "Firebase/Core") then
    joinNl ((splitNl contentStr).flatMap podfileExpandLine)
  else contentStr

/-- The `.java` branch of
`AndroidPlatform.addFirebaseImportsToMainActivity`. -/
def mainActivityJavaPatch (contentStr : Str) : Str :=
  if !containsSub contentStr (str "FirebaseApp.initializeApp") then
    let contentStr :=
      if !containsSub contentStr (str "import com.google.firebase.FirebaseApp;") then
        if containsSub contentStr (str "import android.os.Bundle;") then
          replaceFirst contentStr (str "import android.os.Bundle;")
            (str "import android.os.Bundle;\nimport com.google.firebase.FirebaseApp;")
        else if containsSub contentStr (str "import androidx.appcompat.app.AppCompatActivity;") then
          replaceFirst contentStr (str "import androidx.appcompat.app.AppCompatActivity;")
            (str "import androidx.appcompat.app.AppCompatActivity;\nimport com.google.firebase.FirebaseApp;")
        else
          replaceFirst contentStr (str "package")
            (str "import com.google.firebase.FirebaseApp;\n\npackage")
      else contentStr
    if containsSub contentStr (str "onCreate") then
      replaceFirst contentStr (str "super.onCreate(savedInstanceState);")
        (str "super.onCreate(savedInstanceState);\n        FirebaseApp.initializeApp(this);")
    else contentStr
  else contentStr

/-- The `.kt` branch of
`AndroidPlatform.addFirebaseImportsToMainActivity`. -/
def mainActivityKtPatch (contentStr : Str) : Str :=
  if !containsSub contentStr (str "FirebaseApp.initializeApp") then
    let contentStr :=
      if !containsSub contentStr (str "import com.google.firebase.FirebaseApp") then
        if containsSub contentStr (str "import android.os.Bundle") then
          replaceFirst contentStr (str "import android.os.Bundle")
            (str "import android.os.Bundle\nimport com.google.firebase.FirebaseApp")
        else if containsSub contentStr (str "import androidx.appcompat.app.AppCompatActivity") then
          replaceFirst contentStr (str "import androidx.appcompat.app.AppCompatActivity")
            (str "import androidx.appcompat.app.AppCompatActivity\nimport com.google.firebase.FirebaseApp")
        else
          replaceFirst contentStr (str "package")
            (str "import com.google.firebase.FirebaseApp\n\npackage")
      else contentStr
    if containsSub contentStr (str "onCreate") then
      replaceFirst contentStr (str "super.onCreate(savedInstanceState)")
        (str "super.onCreate(savedInstanceState)\n        FirebaseApp.initializeApp(this)")
    else contentStr
  else contentStr

/-- `AndroidPlatform.addFirebaseImportsToMainActivity` with the file
search made explicit: `none` means no MainActivity.java/kt exists in
the tree (warning, nothing modified, success in the source) and
`some (content, isJava)` carries the found file's content and whether
the path was the `.java` candidate.  The result pairs the possibly
rewritten content with whether the "MainActivity not found" warning
was emitted. -/
def addFirebaseImportsToMainActivity : Option (Str × Bool) → Option Str × Bool
  | none => (none, true)
  | some (contentStr, isJava) =>
    (some (if isJava then mainActivityJavaPatch contentStr else mainActivityKtPatch contentStr),
     false)

/-- The `swiftMethod` anchor constant of
`IOSPlatform.addSwiftFirebaseInitialization`. -/
def swiftMethod : Str :=
  str "func application(_ application: UIApplication, didFinishLaunchingWithOptions launchOptions: [UIApplication.LaunchOptionsKey: Any]?) -> Bool \x7b"

/-- The `swiftMethodWithFirebase` replacement constant. -/
def swiftMethodWithFirebase : Str :=
  swiftMethod ++ str "\n        FirebaseApp.configure()"

/-- The `delegateMethods` template of
`IOSPlatform.addSwiftDelegateMethods`, byte for byte (including the
leading newline and the trailing spaces of the raw Go string). -/
def delegateMethods : Str :=
  str "\n    // MARK: - Firebase Push Notification Delegate Methods\n    func application(_ application: UIApplication, didRegisterForRemoteNotificationsWithDeviceToken deviceToken: Data) \x7b\n        Messaging.messaging().apnsToken = deviceToken\n    \x7d\n    \n    func application(_ application: UIApplication, didFailToRegisterForRemoteNotificationsWithError error: Error) \x7b\n        print(\"Failed to register for remote notifications: \\(error)\")\n    \x7d\n    \n    func application(_ application: UIApplication, didReceiveRemoteNotification userInfo: [AnyHashable: Any]) \x7b\n        // Handle background notification\n    \x7d\n    \n    func application(_ application: UIApplication, \n                     didReceiveRemoteNotification userInfo: [AnyHashable: Any], \n                     fetchCompletionHandler completionHandler: @escaping (UIBackgroundFetchResult) -> Void) \x7b\n        // Handle background notification with completion handler\n        completionHandler(.newData)\n    \x7d"

/-- `IOSPlatform.addSwiftDelegateMethods`: add the FirebaseMessaging
module next to the Firebase one unless already imported, then insert
the delegate-methods template before the class's last closing brace. -/
def addSwiftDelegateMethods (contentStr : Str) : Str :=
  let contentStr :=
    if !containsSub contentStr (str "import FirebaseMessaging") then
      replaceFirst contentStr (str "import Firebase")
        (str "import Firebase\nimport FirebaseMessaging")
    else contentStr
  if containsSub contentStr (str "@UIApplicationMain") ||
      containsSub contentStr (str "class AppDelegate") then
    match lastIndexOf contentStr '\x7d' with
    | some lastBraceIndex => spliceAt contentStr lastBraceIndex (delegateMethods ++ str "\n")
    | none => contentStr
  else contentStr

/-- `IOSPlatform.addSwiftFirebaseInitialization` as a content
transformation: no-op when the "FirebaseApp.configure()" marker is
present; otherwise add the Firebase import, insert the configure call
after the exact lifecycle-method signature anchor, and, when the
app-delegate proxy is disabled, append the push-notification delegate
methods. -/
def addSwiftFirebaseInitialization (contentStr : Str) (proxyEnabled : Bool) : Str :=
  if containsSub contentStr (str "FirebaseApp.configure()") then contentStr
  else
    let contentStr :=
      if !containsSub contentStr (str "import Firebase") then
        if containsSub contentStr (str "import UIKit") then
          replaceFirst contentStr (str "import UIKit") (str "import UIKit\nimport Firebase")
        else str "import Firebase\n" ++ contentStr
      else contentStr
    let contentStr :=
      if containsSub contentStr (str "didFinishLaunchingWithOptions") then
        replaceFirst contentStr swiftMethod swiftMethodWithFirebase
      else contentStr
    if !proxyEnabled then addSwiftDelegateMethods contentStr else contentStr

/-- A minimal AppDelegate.swift content on which the proxy-disabled
initialization patch is exercised. -/
def appDelegateSeed : Str := str "import UIKit\nclass AppDelegate \x7b\n\x7d"

/-!  Config installation (android.go `InstallConfig` and the desktop
`installConfigHelper`).  The filesystem is an association list from
paths to contents; `os.MkdirAll` has no observable effect in this view
and is dropped; `filepath.Join` inserts a slash. -/

/-- Model of `filepath.Join` for the two-component calls. -/
def pathJoin (p q : Str) : Str := p ++ str "/" ++ q

/-- Look up a path in the file store (`os.ReadFile`). -/
def fsRead : List (Str × Str) → Str → Option Str
  | [], _ => none
  | (q, c) :: t, p => if q = p then some c else fsRead t p

/-- Write a path in the file store (`os.WriteFile`). -/
def fsWrite : List (Str × Str) → Str → Str → List (Str × Str)
  | [], p, c => [(p, c)]
  | (q, d) :: t, p, c => if q = p then (p, c) :: t else (q, d) :: fsWrite t p c

/-- Delete a path from the file store (`os.Remove`). -/
def fsRemove : List (Str × Str) → Str → List (Str × Str)
  | [], _ => []
  | (q, d) :: t, p => if q = p then fsRemove t p else (q, d) :: fsRemove t p

/-- Outcome of a config installation: an error message (with the file
store untouched past the point of failure) or the updated store. -/
structure InstallResult where
  err : Option Str
  fs : List (Str × Str)
deriving DecidableEq

/-- `AndroidPlatform.InstallConfig` (the identical copy/delete skeleton
is used by `IOSPlatform.InstallConfig`): read from `config.ConfigFile`
when set, else from the temp-dir fallback; write the bytes to
`configPath/configFileName`; remove `config.ConfigFile` afterwards when
it was set. -/
def AndroidPlatform.InstallConfig (fs : List (Str × Str)) (configFile : Str)
    (configPath configFileName tmpDir : Str) : InstallResult :=
  let targetPath := pathJoin configPath configFileName
  let sourceFile := if configFile = [] then pathJoin tmpDir configFileName else configFile
  match fsRead fs sourceFile with
  | none => ⟨some (str "failed to read source config file"), fs⟩
  | some sourceData =>
    let fs := fsWrite fs targetPath sourceData
    let fs := if configFile ≠ [] then fsRemove fs configFile else fs
    ⟨none, fs⟩

/-- `MacOSPlatform.installConfigHelper` (the Windows and Linux copies
have the same body): always read from the temp dir, write the target,
and never remove the source artifact. -/
def installConfigHelper (fs : List (Str × Str))
    (configPath configFileName tmpDir : Str) : InstallResult :=
  let targetPath := pathJoin configPath configFileName
  let sourceFile := pathJoin tmpDir configFileName
  match fsRead fs sourceFile with
  | none => ⟨some (str "failed to read source config file"), fs⟩
  | some sourceData => ⟨none, fsWrite fs targetPath sourceData⟩

/-!  The configure pipeline (cmd/configure.go `runConfigure`). -/

/-- The five stages of `runConfigure` in source order. -/
inductive StageTag where
  | validate
  | register
  | download
  | install
  | inject
deriving DecidableEq

/-- The stage trace of `runConfigure`: each stage runs only when every
earlier stage succeeded, and the Source Mutator stage (`inject`) comes
after the Config Installer stage (`install`). -/
def runConfigureStages (validateOk registerOk downloadOk installOk : Bool) : List StageTag :=
  .validate ::
    if validateOk then
      .register ::
        if registerOk then
          .download ::
            if downloadOk then
              .install :: if installOk then [.inject] else []
            else []
        else []
    else []

/-!  Concrete fixtures used by the claim checks. -/

/-- A registered iOS app whose `namespace` field equals the expected
bundle id while its `bundleId` field is non-empty and different. -/
def nsOnlyApp : App :=
  ⟨str "1:11:ios:aaa", str "A", str "proj", str "ios", str "com.other", [], str "com.expected"⟩

/-- A run configuration with an explicit bundle id and no explicit app
id. -/
def nsOnlyCfg : ConfigM := ⟨str "proj", [], str "iOS", str "com.expected", []⟩

/-- A registered iOS app whose `namespace` equals the expected bundle
id, as found by the duplicate-recovery re-listing. -/
def dupApp : App :=
  ⟨str "1:22:ios:bbb", str "D", str "proj", str "ios", str "com.dup", [], str "com.dup"⟩

/-- A run configuration for the duplicate-recovery scenario. -/
def dupCfg : ConfigM := ⟨str "proj", [], str "iOS", str "com.dup", []⟩

/-- C2: the fallback identifier generator is a pure total function: it
replaces hyphens by periods, prefixes "com.firebase." when no period is
present and "com." otherwise, bundle ids and package names use the same
rule, the three documented examples hold, and the result is non-empty
for every non-empty project id. -/
theorem C2_generate_identifier :
    generateDefaultPackageName (str "my-awesome-project") = str "com.my.awesome.project" ∧
    generateDefaultPackageName (str "myproject") = str "com.firebase.myproject" ∧
    generateDefaultPackageName (str "com.example.project") = str "com.com.example.project" ∧
    (∀ pid, generateDefaultPackageName pid = generateDefaultBundleID pid) ∧
    (∀ pid, pid ≠ [] → generateDefaultPackageName pid ≠ []) := by
  refine ⟨by decide, by decide, by decide, fun pid => rfl, fun pid _ => ?_⟩
  show (if !containsSub (replaceDash pid) (str ".") then str "com.firebase." ++ replaceDash pid
        else str "com." ++ replaceDash pid) ≠ []
  split <;> simp [str, String.data]

/-- Witness for `C2_generate_identifier` at the concrete id "demo". -/
theorem C2_generate_identifier_witness :
    (str "demo" ≠ ([] : Str)) ∧ generateDefaultPackageName (str "demo") ≠ [] :=
  ⟨by decide, C2_generate_identifier.2.2.2.2 (str "demo") (by decide)⟩

set_option maxRecDepth 400000 in
/-- C1: the idempotence invariant is broken by the code: on a minimal
AppDelegate.swift, with the app-delegate proxy disabled (a state the
tool reads from Info.plist), the Swift initialization patch re-inserts
the push-notification delegate-methods template on every run - that
insertion has no marker guard - so the output of the second run is not
byte-identical to the output of the first. -/
theorem C1_swift_patch_second_run_differs :
    addSwiftFirebaseInitialization (addSwiftFirebaseInitialization appDelegateSeed false) false ≠
      addSwiftFirebaseInitialization appDelegateSeed false := by
  intro h
  exact absurd (congrArg strLen h) (by decide)

/-- C3: identifier resolution is a strict three-tier priority chain,
for both the iOS/macOS bundle id and the Android package name: the
explicit configuration value wins, else the value parsed from project
files, else the value generated from the backend project id. -/
theorem C3_resolution_priority :
    (∀ cfg d, cfg.bundleID ≠ [] →
        resolveExpectedIdentifier cfg d (str "ios") = cfg.bundleID) ∧
    (∀ cfg d, cfg.bundleID = [] → d.iosBundleID ≠ [] →
        resolveExpectedIdentifier cfg d (str "ios") = d.iosBundleID) ∧
    (∀ cfg d, cfg.bundleID = [] → d.iosBundleID = [] →
        resolveExpectedIdentifier cfg d (str "ios") = generateDefaultBundleID cfg.projectID) ∧
    (∀ cfg d, cfg.packageName ≠ [] →
        resolveExpectedIdentifier cfg d (str "android") = cfg.packageName) ∧
    (∀ cfg d, cfg.packageName = [] → d.androidPackageName ≠ [] →
        resolveExpectedIdentifier cfg d (str "android") = d.androidPackageName) ∧
    (∀ cfg d, cfg.packageName = [] → d.androidPackageName = [] →
        resolveExpectedIdentifier cfg d (str "android") = generateDefaultPackageName cfg.projectID) := by
  have hx : ¬(str "android" = str "ios" ∨ str "android" = str "macos") := by decide
  refine ⟨?_, ?_, ?_, ?_, ?_, ?_⟩ <;> intro cfg d <;> intros <;>
    simp_all [resolveExpectedIdentifier, hx]

/-- Witness for `C3_resolution_priority`: with all three tiers
available the explicit bundle id wins. -/
theorem C3_resolution_priority_witness :
    (str "com.x" ≠ ([] : Str)) ∧
    resolveExpectedIdentifier ⟨str "p", [], str "iOS", str "com.x", []⟩ ⟨str "com.y", []⟩
      (str "ios") = str "com.x" :=
  ⟨by decide,
   C3_resolution_priority.1 ⟨str "p", [], str "iOS", str "com.x", []⟩ ⟨str "com.y", []⟩
     (by decide)⟩

/-- C4: the classifier evaluates the detectors in the fixed order
Android, iOS, macOS, Windows, Linux and returns the first whose
predicate fires, and errors when none fires; in particular a directory
holding both build.gradle and Podfile triggers both the Android and the
iOS predicate and classifies as Android. -/
theorem C4_classifier_priority :
    (∀ fs, DetectPlatform fs =
        if AndroidPlatform.Detect fs then .ok .android
        else if IOSPlatform.Detect fs then .ok .ios
        else if MacOSPlatform.Detect fs then .ok .macos
        else if WindowsPlatform.Detect fs then .ok .windows
        else if LinuxPlatform.Detect fs then .ok .linux
        else .error (str "no supported platform detected in current directory")) ∧
    AndroidPlatform.Detect gradlePodfileFS = true ∧
    IOSPlatform.Detect gradlePodfileFS = true ∧
    DetectPlatform gradlePodfileFS = .ok .android :=
  ⟨fun _ => rfl, by decide, by decide, by decide⟩

/-- C9: an explicitly supplied app id short-circuits registration: the
configured app id is returned unchanged and neither the registry
listing nor app creation happens, whatever those would have returned. -/
theorem C9_explicit_app_id_short_circuit :
    ∀ cfg d l1 cr ex l2, cfg.appID ≠ [] →
      RegisterApp cfg d l1 cr ex l2 = ⟨.ok cfg.appID, false, false⟩ := by
  intro cfg d l1 cr ex l2 h
  simp [RegisterApp, h]

/-- Witness for `C9_explicit_app_id_short_circuit` on a configuration
carrying the app id "APP" and failing collaborators. -/
theorem C9_explicit_app_id_short_circuit_witness :
    (str "APP" ≠ ([] : Str)) ∧
    RegisterApp ⟨str "p", str "APP", str "iOS", [], []⟩ ⟨[], []⟩ (.error (str "x"))
        (.error (str "y")) (fun _ => []) (.error (str "z")) =
      ⟨.ok (str "APP"), false, false⟩ :=
  ⟨by decide,
   C9_explicit_app_id_short_circuit ⟨str "p", str "APP", str "iOS", [], []⟩ ⟨[], []⟩
     (.error (str "x")) (.error (str "y")) (fun _ => []) (.error (str "z")) (by decide)⟩

/-- Helper: the `FindExistingApp` loop returns a matching app whenever
the listing contains one. -/
theorem findExistingAppLoop_finds (cfg : ConfigM) (d : Detected) (lp : Str) (apps : List App)
    (h : ∃ a ∈ apps, toLowerStr a.platform = lp ∧ checkAppMatch cfg d a lp = true) :
    ∃ b, findExistingAppLoop cfg d lp apps = some b ∧
      toLowerStr b.platform = lp ∧ checkAppMatch cfg d b lp = true := by
  induction apps with
  | nil =>
    rcases h with ⟨a, ha, _⟩
    cases ha
  | cons app rest ih =>
    rcases h with ⟨a, ha, hpl, hm⟩
    by_cases hp : toLowerStr app.platform = lp
    · by_cases hcm : checkAppMatch cfg d app lp = true
      · exact ⟨app, by simp [findExistingAppLoop, hp, hcm], hp, hcm⟩
      · have hmem : a ∈ rest := by
          rcases List.mem_cons.mp ha with h' | h'
          · subst h'
            exact absurd hm hcm
          · exact h'
        rcases ih ⟨a, hmem, hpl, hm⟩ with ⟨b, hb, h1, h2⟩
        refine ⟨b, ?_, h1, h2⟩
        simpa [findExistingAppLoop, hp, hcm] using hb
    · have hmem : a ∈ rest := by
        rcases List.mem_cons.mp ha with h' | h'
        · subst h'
          exact absurd hpl hp
        · exact h'
      rcases ih ⟨a, hmem, hpl, hm⟩ with ⟨b, hb, h1, h2⟩
      refine ⟨b, ?_, h1, h2⟩
      simpa [findExistingAppLoop, hp] using hb

/-- C5 counterexample: the listing holds an iOS app whose namespace
field equals the resolved identifier, yet the pre-creation exact-match
search misses it (the non-empty bundleId field is checked first, the
namespace only as a fallback) and app creation is attempted. -/
theorem C5_namespace_match_missed :
    nsOnlyApp.nameSpace = resolveExpectedIdentifier nsOnlyCfg ⟨[], []⟩ (str "ios") ∧
    toLowerStr nsOnlyApp.platform = toLowerStr nsOnlyCfg.platformName ∧
    FindExistingApp nsOnlyCfg ⟨[], []⟩ [nsOnlyApp] = none ∧
    (RegisterApp nsOnlyCfg ⟨[], []⟩ (.ok [nsOnlyApp]) (.ok (str "created"))
        (fun _ => str "1:33:ios:ccc") (.ok [])).createAttempted = true := by
  decide

/-- C5 amended: reconciliation deduplicates before creating - when the
pre-creation search finds an app of the matching platform it returns
that app's id and creation is never invoked - but the exact-match
check consults the platform-specific field first and the namespace
field only as a fallback when the platform-specific field is empty. -/
theorem C5_registry_dedup_amended :
    (∀ cfg d apps app cr ex l2, cfg.appID = [] →
        FindExistingApp cfg d apps = some app →
        RegisterApp cfg d (.ok apps) cr ex l2 = ⟨.ok app.appID, true, false⟩) ∧
    (∀ cfg d app, app.bundleID ≠ [] →
        (checkIOSAppMatch cfg d app = true ↔
          app.bundleID = resolveExpectedIdentifier cfg d (str "ios"))) ∧
    (∀ cfg d app, app.bundleID = [] →
        (checkIOSAppMatch cfg d app = true ↔
          app.nameSpace = resolveExpectedIdentifier cfg d (str "ios"))) ∧
    (∀ cfg d apps,
        (∃ a ∈ apps, toLowerStr a.platform = toLowerStr cfg.platformName ∧
          checkAppMatch cfg d a (toLowerStr cfg.platformName) = true) →
        ∃ b, FindExistingApp cfg d apps = some b ∧
          toLowerStr b.platform = toLowerStr cfg.platformName ∧
          checkAppMatch cfg d b (toLowerStr cfg.platformName) = true) := by
  refine ⟨?_, ?_, ?_, ?_⟩
  · intro cfg d apps app cr ex l2 h0 hfind
    simp [RegisterApp, h0, hfind]
  · intro cfg d app hb
    simp [checkIOSAppMatch, resolveExpectedIdentifier, hb]
  · intro cfg d app hb
    simp [checkIOSAppMatch, resolveExpectedIdentifier, hb]
  · intro cfg d apps h
    exact findExistingAppLoop_finds cfg d (toLowerStr cfg.platformName) apps h

/-- Witness for `C5_registry_dedup_amended`: a listing whose only app
matches by bundle id is reused and creation is skipped. -/
theorem C5_registry_dedup_amended_witness :
    FindExistingApp dupCfg ⟨[], []⟩ [dupApp] = some dupApp ∧
    RegisterApp dupCfg ⟨[], []⟩ (.ok [dupApp]) (.error (str "boom")) (fun _ => [])
        (.ok []) = ⟨.ok dupApp.appID, true, false⟩ :=
  ⟨by decide,
   C5_registry_dedup_amended.1 dupCfg ⟨[], []⟩ [dupApp] dupApp (.error (str "boom"))
     (fun _ => []) (.ok []) (by decide) (by decide)⟩

/-- C6: a creation failure matching the duplicate vocabulary (which
contains "already exists", compared case-insensitively) triggers one
registry re-search: a found app's id is returned with no error, an
empty or failing re-search surfaces the original creation error, and a
failure matching none of the phrases is surfaced directly with a
result independent of any re-search data. -/
theorem C6_duplicate_conflict_recovery :
    (∀ out, containsSub (toLowerStr out) (str "already exists") = true →
        isDuplicateAppError out = true) ∧
    (∀ cfg d out l2 app, isDuplicateAppError out = true →
        findExistingAppByIdentifier cfg d l2 = .ok (some app) →
        handleAppCreationError cfg d out l2 = .ok app.appID) ∧
    (∀ cfg d out l2, isDuplicateAppError out = true →
        findExistingAppByIdentifier cfg d l2 = .ok none →
        handleAppCreationError cfg d out l2 =
          .error (str "failed to create Firebase app: " ++ out)) ∧
    (∀ cfg d out e2, isDuplicateAppError out = true →
        handleAppCreationError cfg d out (.error e2) =
          .error (str "failed to create Firebase app: " ++ out)) ∧
    (∀ cfg d out l2, isDuplicateAppError out = false →
        handleAppCreationError cfg d out l2 =
          .error (str "failed to create Firebase app: " ++ out)) ∧
    (∀ cfg d out l2 l2x, isDuplicateAppError out = false →
        handleAppCreationError cfg d out l2 = handleAppCreationError cfg d out l2x) := by
  refine ⟨?_, ?_, ?_, ?_, ?_, ?_⟩
  · intro out h
    have hlow : toLowerStr (str "already exists") = str "already exists" := by decide
    simp only [isDuplicateAppError, errorIndicators, List.any_cons, Bool.or_eq_true]
    exact Or.inl (by rw [hlow]; exact h)
  · intro cfg d out l2 app hdup hfind
    simp [handleAppCreationError, hdup, hfind]
  · intro cfg d out l2 hdup hfind
    simp [handleAppCreationError, hdup, hfind]
  · intro cfg d out e2 hdup
    simp [handleAppCreationError, findExistingAppByIdentifier, hdup]
  · intro cfg d out l2 hdup
    simp [handleAppCreationError, hdup]
  · intro cfg d out l2 l2x hdup
    simp [handleAppCreationError, hdup]

/-- Witness for `C6_duplicate_conflict_recovery`: an "already exists"
failure followed by a successful re-listing returns the existing
app's id. -/
theorem C6_duplicate_conflict_recovery_witness :
    isDuplicateAppError (str "Error: app already exists") = true ∧
    handleAppCreationError dupCfg ⟨[], []⟩ (str "Error: app already exists")
      (.ok [dupApp]) = .ok dupApp.appID :=
  ⟨by decide,
   C6_duplicate_conflict_recovery.2.1 dupCfg ⟨[], []⟩ (str "Error: app already exists")
     (.ok [dupApp]) dupApp (by decide) (by decide)⟩

/-- Helper: `splitNl` never returns the empty list of lines. -/
theorem splitNl_ne_nil (s : Str) : splitNl s ≠ [] := by
  cases s with
  | nil => simp [splitNl]
  | cons c t =>
    simp only [splitNl]
    split
    · simp
    · split <;> simp

/-- Helper: `joinNl` is a left inverse of `splitNl`. -/
theorem joinNl_splitNl (s : Str) : joinNl (splitNl s) = s := by
  induction s with
  | nil => rfl
  | cons c t ih =>
    obtain ⟨l, ls, hs⟩ := List.exists_cons_of_ne_nil (splitNl_ne_nil t)
    by_cases h : c = '\n'
    · subst h
      rw [show splitNl ('\n' :: t) = [] :: splitNl t from rfl, hs]
      rw [hs] at ih
      show [] ++ '\n' :: joinNl (l :: ls) = '\n' :: t
      rw [List.nil_append, ih]
    · rw [show splitNl (c :: t) =
          (match splitNl t with
           | l :: ls => (c :: l) :: ls
           | [] => [[c]]) from by simp [splitNl, h], hs]
      rw [hs] at ih
      cases ls with
      | nil =>
        show c :: l = c :: t
        rw [show joinNl [l] = l from rfl] at ih
        rw [ih]
      | cons l2 ls2 =>
        show (c :: l) ++ '\n' :: joinNl (l2 :: ls2) = c :: t
        rw [List.cons_append]
        exact congrArg (c :: ·) ih

/-- Helper: `flatMap` with a function that keeps every element fixed. -/
theorem flatMap_fixed {α : Type} (f : α → List α) :
    ∀ L : List α, (∀ l ∈ L, f l = [l]) → L.flatMap f = L
  | [], _ => rfl
  | a :: t, h => by
    rw [List.flatMap_cons, h a (List.mem_cons_self a t),
      flatMap_fixed f t fun l hl => h l (List.mem_cons_of_mem a hl)]
    rfl

/-- C7 counterexample: an app-level build.gradle containing neither the
"google-services" marker nor the plugins-block anchor is modified by
the fallback (an apply-plugin line is prepended); the file is not left
unchanged. -/
theorem C7_gradle_anchor_miss_changes_file :
    addGoogleServicesPlugin (str "android \x7b\n\x7d") ≠ str "android \x7b\n\x7d" ∧
    addGoogleServicesPlugin (str "android \x7b\n\x7d") =
      str "apply plugin: \x27com.google.gms.google-services\x27\n\n" ++
        str "android \x7b\n\x7d" := by
  decide

/-- C7 amended: an anchor miss is non-fatal but not always
change-free: the app-level build.gradle patch falls back to prepending
an apply-plugin declaration when the plugins block is missing, the
project-level classpath patch and the Podfile patch leave an
anchor-less file unchanged, a missing MainActivity produces only a
warning and modifies nothing, and the Config Installer stage runs
before (hence regardless of) the code-injection stage. -/
theorem C7_anchor_miss_amended :
    (∀ c, containsSub c (str "google-services") = false →
        containsSub c (str "plugins \x7b") = false →
        addGoogleServicesPlugin c =
          str "apply plugin: \x27com.google.gms.google-services\x27\n\n" ++ c) ∧
    (∀ c, containsSub c (str "dependencies \x7b") = false →
        addClasspathToBuildGradle c = c) ∧
    (∀ c, (∀ l ∈ splitNl c, (containsSub l (str "target") && containsSub l (str "do")) = false) →
        addFirebasePods c = c) ∧
    addFirebaseImportsToMainActivity none = (none, true) ∧
    (∀ v r dl i, StageTag.install ∈ runConfigureStages v r dl i ↔
        v = true ∧ r = true ∧ dl = true) := by
  refine ⟨?_, ?_, ?_, rfl, ?_⟩
  · intro c h1 h2
    simp [addGoogleServicesPlugin, h1, h2]
  · intro c h
    by_cases hm : containsSub c (str "google-services") = true
    · simp [addClasspathToBuildGradle, hm]
    · simp only [Bool.not_eq_true] at hm
      simp [addClasspathToBuildGradle, hm, h]
  · intro c h
    by_cases hm : containsSub c (str "Firebase/Core") = true
    · simp [addFirebasePods, hm]
    · simp only [Bool.not_eq_true] at hm
      have hfix : (splitNl c).flatMap podfileExpandLine = splitNl c :=
        flatMap_fixed _ _ fun l hl => by simp [podfileExpandLine, h l hl]
      simp [addFirebasePods, hm, hfix, joinNl_splitNl]
  · decide

/-- Witness for `C7_anchor_miss_amended`: a project build.gradle with
no dependencies block is left unchanged. -/
theorem C7_anchor_miss_amended_witness :
    containsSub (str "buildscript \x7b\n\x7d") (str "dependencies \x7b") = false ∧
    addClasspathToBuildGradle (str "buildscript \x7b\n\x7d") = str "buildscript \x7b\n\x7d" :=
  ⟨by decide, C7_anchor_miss_amended.2.1 (str "buildscript \x7b\n\x7d") (by decide)⟩

/-- Helper: reading a freshly written path yields the written bytes. -/
theorem fsRead_fsWrite_self (fs : List (Str × Str)) (p c : Str) :
    fsRead (fsWrite fs p c) p = some c := by
  induction fs with
  | nil => simp [fsWrite, fsRead]
  | cons e t ih =>
    obtain ⟨q, v⟩ := e
    by_cases h : q = p
    · simp [fsWrite, fsRead, h]
    · simp [fsWrite, fsRead, h, ih]

/-- Helper: writing one path leaves every other path unchanged. -/
theorem fsRead_fsWrite_other (fs : List (Str × Str)) (p q c : Str) (h : q ≠ p) :
    fsRead (fsWrite fs p c) q = fsRead fs q := by
  induction fs with
  | nil => simp [fsWrite, fsRead, Ne.symm h]
  | cons e t ih =>
    obtain ⟨k, v⟩ := e
    by_cases hk : k = p
    · subst hk
      simp [fsWrite, fsRead, Ne.symm h]
    · simp [fsWrite, fsRead, hk, ih]

/-- Helper: a removed path reads as absent. -/
theorem fsRead_fsRemove_self (fs : List (Str × Str)) (p : Str) :
    fsRead (fsRemove fs p) p = none := by
  induction fs with
  | nil => simp [fsRemove, fsRead]
  | cons e t ih =>
    obtain ⟨k, v⟩ := e
    by_cases hk : k = p
    · simp [fsRemove, hk, ih]
    · simp [fsRemove, fsRead, hk, ih]

/-- Helper: removing one path leaves every other path unchanged. -/
theorem fsRead_fsRemove_other (fs : List (Str × Str)) (p q : Str) (h : q ≠ p) :
    fsRead (fsRemove fs p) q = fsRead fs q := by
  induction fs with
  | nil => simp [fsRemove]
  | cons e t ih =>
    obtain ⟨k, v⟩ := e
    by_cases hk : k = p
    · subst hk
      simp [fsRemove, fsRead, Ne.symm h, ih]
    · simp [fsRemove, fsRead, hk, ih]

/-- C8 counterexample: the macOS config-install helper (also used for
Windows and Linux) succeeds yet leaves the source artifact in place -
the source is never deleted on the desktop platforms. -/
theorem C8_desktop_install_keeps_source :
    (installConfigHelper [(pathJoin (str "/tmp") (str "GoogleService-Info.plist"), str "PLIST")]
        (str "macos") (str "GoogleService-Info.plist") (str "/tmp")).err = none ∧
    fsRead
        (installConfigHelper
          [(pathJoin (str "/tmp") (str "GoogleService-Info.plist"), str "PLIST")]
          (str "macos") (str "GoogleService-Info.plist") (str "/tmp")).fs
        (pathJoin (str "/tmp") (str "GoogleService-Info.plist")) = some (str "PLIST") := by
  decide

/-- C8 amended: Android (and iOS, which shares the skeleton) install
copies the artifact bytes to targetDir/conventionalFileName and then
deletes the source artifact when the artifact path is set, while the
desktop helper copies from the fixed temp location and does not delete
the source; on every variant a missing source artifact returns an
error with the file store untouched. -/
theorem C8_install_config_amended :
    (∀ fs configFile cp name tmp data, configFile ≠ [] →
        fsRead fs configFile = some data →
        configFile ≠ pathJoin cp name →
        (AndroidPlatform.InstallConfig fs configFile cp name tmp).err = none ∧
        fsRead (AndroidPlatform.InstallConfig fs configFile cp name tmp).fs
          (pathJoin cp name) = some data ∧
        fsRead (AndroidPlatform.InstallConfig fs configFile cp name tmp).fs configFile = none) ∧
    (∀ fs configFile cp name tmp,
        fsRead fs (if configFile = [] then pathJoin tmp name else configFile) = none →
        AndroidPlatform.InstallConfig fs configFile cp name tmp =
          ⟨some (str "failed to read source config file"), fs⟩) ∧
    (∀ fs cp name tmp data, fsRead fs (pathJoin tmp name) = some data →
        installConfigHelper fs cp name tmp = ⟨none, fsWrite fs (pathJoin cp name) data⟩ ∧
        (pathJoin tmp name ≠ pathJoin cp name →
          fsRead (installConfigHelper fs cp name tmp).fs (pathJoin tmp name) = some data)) ∧
    (∀ fs cp name tmp, fsRead fs (pathJoin tmp name) = none →
        installConfigHelper fs cp name tmp =
          ⟨some (str "failed to read source config file"), fs⟩) := by
  refine ⟨?_, ?_, ?_, ?_⟩
  · intro fs configFile cp name tmp data hcf hread hne
    have hmain : AndroidPlatform.InstallConfig fs configFile cp name tmp =
        ⟨none, fsRemove (fsWrite fs (pathJoin cp name) data) configFile⟩ := by
      simp [AndroidPlatform.InstallConfig, hcf, hread]
    rw [hmain]
    refine ⟨rfl, ?_, ?_⟩
    · rw [fsRead_fsRemove_other _ _ _ (Ne.symm hne), fsRead_fsWrite_self]
    · exact fsRead_fsRemove_self _ _
  · intro fs configFile cp name tmp hread
    simp [AndroidPlatform.InstallConfig, hread]
  · intro fs cp name tmp data hread
    have hmain : installConfigHelper fs cp name tmp =
        ⟨none, fsWrite fs (pathJoin cp name) data⟩ := by
      simp [installConfigHelper, hread]
    refine ⟨hmain, fun hne => ?_⟩
    rw [hmain]
    show fsRead (fsWrite fs (pathJoin cp name) data) (pathJoin tmp name) = some data
    rw [fsRead_fsWrite_other _ _ _ _ hne]
    exact hread
  · intro fs cp name tmp hread
    simp [installConfigHelper, hread]

/-- Witness for `C8_install_config_amended`: a concrete Android install
writes the target and consumes the artifact. -/
theorem C8_install_config_amended_witness :
    (AndroidPlatform.InstallConfig [(str "/tmp/cfg123", str "JSON")] (str "/tmp/cfg123")
        (str "app") (str "google-services.json") (str "/tmp")).err = none ∧
    fsRead (AndroidPlatform.InstallConfig [(str "/tmp/cfg123", str "JSON")] (str "/tmp/cfg123")
        (str "app") (str "google-services.json") (str "/tmp")).fs
      (pathJoin (str "app") (str "google-services.json")) = some (str "JSON") ∧
    fsRead (AndroidPlatform.InstallConfig [(str "/tmp/cfg123", str "JSON")] (str "/tmp/cfg123")
        (str "app") (str "google-services.json") (str "/tmp")).fs (str "/tmp/cfg123") = none :=
  C8_install_config_amended.1 [(str "/tmp/cfg123", str "JSON")] (str "/tmp/cfg123")
    (str "app") (str "google-services.json") (str "/tmp") (str "JSON") (by decide) (by decide)
    (by decide)

/-- C10: converting a platform name string succeeds exactly for the
five supported names compared case-insensitively and yields an
unsupported-platform error carrying the input for every other string,
the empty string included. -/
theorem C10_from_string_case_insensitive :
    (∀ s, (FromString s = .ok .android ↔ toLowerStr s = str "android") ∧
      (FromString s = .ok .ios ↔ toLowerStr s = str "ios") ∧
      (FromString s = .ok .macos ↔ toLowerStr s = str "macos") ∧
      (FromString s = .ok .windows ↔ toLowerStr s = str "windows") ∧
      (FromString s = .ok .linux ↔ toLowerStr s = str "linux") ∧
      (toLowerStr s ∉ [str "android", str "ios", str "macos", str "windows", str "linux"] →
        FromString s = .error (str "unsupported platform: " ++ s))) ∧
    FromString (str "Android") = FromString (str "android") ∧
    FromString (str "") = .error (str "unsupported platform: " ++ str "") := by
  refine ⟨?_, by decide, by decide⟩
  intro s
  unfold FromString
  dsimp only
  split_ifs with h1 h2 h3 h4 h5 <;> simp_all [List.mem_cons] <;> decide

/-- Witness for `C10_from_string_case_insensitive` at the unsupported
name "plan9". -/
theorem C10_from_string_witness :
    toLowerStr (str "plan9") ∉
      [str "android", str "ios", str "macos", str "windows", str "linux"] ∧
    FromString (str "plan9") = .error (str "unsupported platform: " ++ str "plan9") :=
  ⟨by decide, (C10_from_string_case_insensitive.1 (str "plan9")).2.2.2.2.2 (by decide)⟩
